import Mathlib

/-!
Shallow embedding of the record-keeping core (`record_keeper.py`):
the `DocumentRecord` data model, the id allocator (`_generate_id`,
`_load_counter`, `_save_counter`, `_initialize_counter_from_records`),
the `RecordKeeper` operations (`add_record`, `edit_record`,
`delete_record`, `search_records`, `get_statistics`,
`import_from_excel`, `restore_from_backup`), and the date normalizer
(`_parse_and_format_date`).

State is passed explicitly: a `KeeperState` carries both the in-memory
collection/counter and the persisted file contents (record file,
counter file).  Machine-level file I/O is modelled as assignment to the
corresponding file field; the pandas generic date parser is an explicit
function parameter.
-/

namespace RecordKeeper

/-! ## Decimal digits: printing and parsing -/

/-- One decimal digit as a character (defined for `n < 10`). -/
def digitChar (n : Nat) : Char :=
  match n with
  | 0 => '0' | 1 => '1' | 2 => '2' | 3 => '3' | 4 => '4'
  | 5 => '5' | 6 => '6' | 7 => '7' | 8 => '8' | 9 => '9'
  | _ => '*'

/-- Decimal digit characters, most significant first (fuel-driven so
that the kernel can evaluate it). -/
def natDigitsAux : Nat → Nat → List Char
  | 0, _ => []
  | fuel + 1, n =>
    if n < 10 then [digitChar n]
    else natDigitsAux fuel (n / 10) ++ [digitChar (n % 10)]

/-- Decimal digit characters of a natural number, most significant first. -/
def natDigits (n : Nat) : List Char :=
  natDigitsAux (n + 1) n

/-- Value of a list of decimal digit characters. -/
def parseDigits (ds : List Char) : Nat :=
  ds.foldl (fun a c => 10 * a + (c.toNat - 48)) 0

/-- Zero-padded decimal rendering to width `w` (Python `f"{n:0wd}"`). -/
def padNum (w n : Nat) : String :=
  let ds := natDigits n
  String.mk (List.replicate (w - ds.length) '0' ++ ds)

/-! ## Splitting on the id separator

`_initialize_counter_from_records` extracts the numeric suffix of an id
with `record.id.split(' - ')`; `splitDash` embeds Python's
`str.split(' - ')` (left-to-right, non-overlapping occurrences of the
three-character separator), accumulating the current chunk in `acc`. -/

/-- Does the list start with the separator `' '`, `'-'`, `' '`? -/
def startsSep (s : List Char) : Bool :=
  match s with
  | a :: b :: c :: _ => a == ' ' && b == '-' && c == ' '
  | _ => false

/-- Python `s.split(' - ')` on character lists, fuel-driven so that the
kernel can evaluate it (the fuel is always sufficient below). -/
def splitDashAux : Nat → List Char → List Char → List (List Char)
  | 0, s, acc => [acc.reverse ++ s]
  | fuel + 1, s, acc =>
    match s with
    | [] => [acc.reverse]
    | c :: rest =>
      if startsSep (c :: rest) then acc.reverse :: splitDashAux fuel ((c :: rest).drop 3) []
      else splitDashAux fuel rest (c :: acc)

/-- Python `s.split(' - ')` on character lists. -/
def splitDash (s : List Char) (acc : List Char) : List (List Char) :=
  splitDashAux (s.length + 1) s acc

/-! ## Record ids -/

/-- `DocumentRecord._generate_id`: the id minted for counter value `n`
(the Python code first increments the counter, then formats it; callers
below pass the already-incremented value). -/
def generateId (n : Nat) : String :=
  "MAYOR'S OFFICE - " ++ padNum 3 n

/-- Numeric suffix of a record id, as extracted by
`_initialize_counter_from_records`: split on `' - '`; exactly two parts
and an integral second part are required, otherwise no suffix. -/
def suffixOf (id : String) : Option Nat :=
  match splitDash id.data [] with
  | [_, numPart] =>
    if numPart ≠ [] ∧ numPart.all (·.isDigit) then some (parseDigits numPart) else none
  | _ => none

/-! ## Date normalizer (`_parse_and_format_date`)

The five regex patterns are embedded as character-list matchers; for
these patterns regex backtracking is irrelevant (every bounded digit
group is followed by a non-digit token), so a maximal-munch digit
scanner is equivalent.  `datetime.strptime` success followed by the
`datetime` constructor amounts to range validity of the captured
fields (month 1–12, day within the month incl. leap years, hour ≤ 23,
minute/second ≤ 59, year 1–9999).  The pandas generic fallback
(`pd.to_datetime`) is external library code and is passed in as a
function `fallback : String → Option String`, `none` meaning it raised
or produced NaT. -/

/-- Leading run of decimal digits and the remainder. -/
def splitDigits : List Char → List Char × List Char
  | [] => ([], [])
  | c :: cs =>
    if c.isDigit then
      let (d, r) := splitDigits cs
      (c :: d, r)
    else ([], c :: cs)

/-- Match a digit group of length in `[minL, maxL]`; return its value. -/
def grabNum (minL maxL : Nat) (cs : List Char) : Option (Nat × List Char) :=
  let (ds, rest) := splitDigits cs
  if minL ≤ ds.length ∧ ds.length ≤ maxL then some (parseDigits ds, rest) else none

/-- Match one separator character satisfying `isSep`. -/
def matchSep (isSep : Char → Bool) : List Char → Option (List Char)
  | c :: rest => if isSep c then some rest else none
  | [] => none

/-- Whitespace class of Python's `\s` (ASCII part). -/
def isPySpace (c : Char) : Bool :=
  c == ' ' || c == '\t' || c == '\n' || c == '\r' || c == '\x0b' || c == '\x0c'

/-- Drop leading whitespace. -/
def dropWs : List Char → List Char
  | c :: rest => if isPySpace c then dropWs rest else c :: rest
  | [] => []

/-- Match `\s+`. -/
def matchWs : List Char → Option (List Char)
  | c :: rest => if isPySpace c then some (dropWs rest) else none
  | [] => none

/-- Python `str.strip()`: remove leading and trailing whitespace. -/
def pyStrip (s : String) : String :=
  String.mk ((dropWs ((dropWs s.data).reverse)).reverse)

/-- Python `str.lower()` (ASCII range; all strings handled by the
repository's own code paths are ASCII). -/
def charToLower (c : Char) : Char :=
  if 'A' ≤ c ∧ c ≤ 'Z' then Char.ofNat (c.toNat + 32) else c

/-- Python `str.lower()` on a whole string. -/
def pyLower (s : String) : String :=
  String.mk (s.data.map charToLower)

/-- Match `(\d{1,2}) sep (\d{1,2}) sep (\d{4})` (month, day, year). -/
def matchMDY (isSep : Char → Bool) (cs : List Char) : Option (Nat × Nat × Nat × List Char) := do
  let (m, r1) ← grabNum 1 2 cs
  let r2 ← matchSep isSep r1
  let (d, r3) ← grabNum 1 2 r2
  let r4 ← matchSep isSep r3
  let (y, r5) ← grabNum 4 4 r4
  pure (m, d, y, r5)

/-- Match `(\d{4})-(\d{1,2})-(\d{1,2})` (year, month, day). -/
def matchYMD (cs : List Char) : Option (Nat × Nat × Nat × List Char) := do
  let (y, r1) ← grabNum 4 4 cs
  let r2 ← matchSep (· == '-') r1
  let (m, r3) ← grabNum 1 2 r2
  let r4 ← matchSep (· == '-') r3
  let (d, r5) ← grabNum 1 2 r4
  pure (y, m, d, r5)

/-- Match `(\d{1,2}):(\d{1,2}):(\d{1,2})` (hour, minute, second). -/
def matchHMS (cs : List Char) : Option (Nat × Nat × Nat × List Char) := do
  let (h, r1) ← grabNum 1 2 cs
  let r2 ← matchSep (· == ':') r1
  let (mi, r3) ← grabNum 1 2 r2
  let r4 ← matchSep (· == ':') r3
  let (s, r5) ← grabNum 1 2 r4
  pure (h, mi, s, r5)

def isLeapYear (y : Nat) : Bool :=
  (y % 4 == 0 && y % 100 != 0) || y % 400 == 0

def daysInMonth (y m : Nat) : Nat :=
  if m == 2 then (if isLeapYear y then 29 else 28)
  else if m == 4 || m == 6 || m == 9 || m == 11 then 30
  else 31

/-- `datetime(year, month, day)` constructibility. -/
def validDate (y m d : Nat) : Bool :=
  1 ≤ y && y ≤ 9999 && 1 ≤ m && m ≤ 12 && 1 ≤ d && d ≤ daysInMonth y m

/-- Time-of-day validity as enforced by `strptime`/`datetime`. -/
def validTime (h mi s : Nat) : Bool :=
  h ≤ 23 && mi ≤ 59 && s ≤ 59

def fmtDate (y m d : Nat) : String :=
  padNum 4 y ++ "-" ++ padNum 2 m ++ "-" ++ padNum 2 d

def fmtDateTime (y m d h mi s : Nat) : String :=
  fmtDate y m d ++ " " ++ padNum 2 h ++ ":" ++ padNum 2 mi ++ ":" ++ padNum 2 s

/-- `strftime` output: date-only when the time component is all zero. -/
def fmtOut (y m d h mi s : Nat) : String :=
  if h = 0 ∧ mi = 0 ∧ s = 0 then fmtDate y m d else fmtDateTime y m d h mi s

/-- Pattern 1: `^(\d{1,2})[./](\d{1,2})[./](\d{4})$` (US format). -/
def tryPattern1 (s : List Char) : Option String :=
  match matchMDY (fun c => c == '.' || c == '/') s with
  | some (m, d, y, []) => if validDate y m d then some (fmtOut y m d 0 0 0) else none
  | _ => none

/-- Pattern 2: `^(\d{1,2})-(\d{1,2})-(\d{4})$` (US format, dashes). -/
def tryPattern2 (s : List Char) : Option String :=
  match matchMDY (· == '-') s with
  | some (m, d, y, []) => if validDate y m d then some (fmtOut y m d 0 0 0) else none
  | _ => none

/-- Pattern 3: `^(\d{4})-(\d{1,2})-(\d{1,2})$` (ISO). -/
def tryPattern3 (s : List Char) : Option String :=
  match matchYMD s with
  | some (y, m, d, []) => if validDate y m d then some (fmtOut y m d 0 0 0) else none
  | _ => none

/-- Pattern 4: `^(\d{4})-(\d{1,2})-(\d{1,2})\s+(\d{1,2}):(\d{1,2}):(\d{1,2})$`. -/
def tryPattern4 (s : List Char) : Option String :=
  match matchYMD s with
  | some (y, m, d, r) =>
    match matchWs r with
    | some r2 =>
      match matchHMS r2 with
      | some (h, mi, sec, []) =>
        if validDate y m d && validTime h mi sec then some (fmtOut y m d h mi sec) else none
      | _ => none
    | none => none
  | none => none

/-- Pattern 5: `^(\d{1,2})[./](\d{1,2})[./](\d{4})\s+(\d{1,2}):(\d{1,2}):(\d{1,2})$`. -/
def tryPattern5 (s : List Char) : Option String :=
  match matchMDY (fun c => c == '.' || c == '/') s with
  | some (m, d, y, r) =>
    match matchWs r with
    | some r2 =>
      match matchHMS r2 with
      | some (h, mi, sec, []) =>
        if validDate y m d && validTime h mi sec then some (fmtOut y m d h mi sec) else none
      | _ => none
    | none => none
  | none => none

/-- The pattern loop of `_parse_and_format_date`: first pattern whose
regex matches and whose `strptime`/`datetime` step succeeds; a pattern
that regex-matches but fails validation falls through (`continue`). -/
def tryPatterns (s : List Char) : Option String :=
  tryPattern1 s <|> tryPattern2 s <|> tryPattern3 s <|> tryPattern4 s <|> tryPattern5 s

/-- Is the (stripped, lowered) input one of the null sentinels? -/
def isNullishDate (dateStr : String) : Bool :=
  dateStr == "" || pyLower (pyStrip dateStr) == "nan" ||
    pyLower (pyStrip dateStr) == "nat" || pyLower (pyStrip dateStr) == "none" ||
    pyLower (pyStrip dateStr) == ""

/-- `RecordKeeper._parse_and_format_date`.  Returns `none` for Python
`None`.  `fallback` stands for the `pd.to_datetime` generic parse
(including its output formatting); `none` models an exception or NaT. -/
def parseAndFormatDate (fallback : String → Option String) (dateStr : String) :
    Option String :=
  if isNullishDate dateStr then none
  else
    let s := pyStrip dateStr
    match tryPatterns s.data with
    | some out => some out
    | none =>
      match fallback s with
      | some out => some out
      | none => some s

/-! ## Data model -/

/-- `DocumentRecord` field layout (`to_dict` order). -/
structure DocumentRecord where
  id : String
  date : String
  sender : String
  subject : String
  destination : String
  status : String
  deriving Repr, DecidableEq

/-- Status normalization in `DocumentRecord.__init__`:
`"Completed" if status in ["Done", "Completed"] else "Pending"`. -/
def normalizeStatus (status : String) : String :=
  if status = "Done" ∨ status = "Completed" then "Completed" else "Pending"

/-- `DocumentRecord.__init__`.  `now` is the value
`datetime.now().strftime("%Y-%m-%d %H:%M:%S")` would produce; `date`,
`recordId` are `None`-able arguments (Python truthiness: an empty
string behaves like `None`).  Returns the record together with the
updated class counter (`_generate_id` increments it only when no id is
supplied). -/
def mkDocumentRecord (now sender subject destination : String) (date : Option String)
    (recordId : Option String) (autoDate : Bool) (status : String) (counter : Nat) :
    DocumentRecord × Nat :=
  let (id, counter') :=
    match recordId with
    | some rid => if rid = "" then (generateId (counter + 1), counter + 1) else (rid, counter)
    | none => (generateId (counter + 1), counter + 1)
  let dateVal :=
    match date with
    | some d => if d = "" then (if autoDate then now else "No Date") else d
    | none => if autoDate then now else "No Date"
  ({ id := id, date := dateVal, sender := sender, subject := subject,
     destination := destination, status := normalizeStatus status }, counter')

/-- The observable state of a `RecordKeeper`: the in-memory collection
and class counter, plus the persisted record file and counter file. -/
structure KeeperState where
  records : List DocumentRecord
  counter : Nat
  recordsFile : List DocumentRecord
  counterFile : Nat
  deriving Repr, DecidableEq

/-! ## Store operations -/

/-- `RecordKeeper.add_record`: construct (auto-date, default status),
append, `save_records`, `_save_counter`. -/
def addRecord (now sender subject destination : String) (date : Option String)
    (s : KeeperState) : DocumentRecord × KeeperState :=
  let (r, c') := mkDocumentRecord now sender subject destination date none true "Pending" s.counter
  (r, { records := s.records ++ [r], counter := c',
        recordsFile := s.records ++ [r], counterFile := c' })

/-- Remove the first record whose id matches; `none` when absent. -/
def deleteList (rid : String) : List DocumentRecord → Option (List DocumentRecord)
  | [] => none
  | r :: rest =>
    if r.id = rid then some rest
    else (deleteList rid rest).map (r :: ·)

/-- `RecordKeeper.delete_record`: remove by id, `save_records`; when the
collection becomes empty, reset the counter and `_save_counter`. -/
def deleteRecord (rid : String) (s : KeeperState) : Bool × KeeperState :=
  match deleteList rid s.records with
  | none => (false, s)
  | some recs =>
    if recs.isEmpty then
      (true, { records := recs, counter := 0, recordsFile := recs, counterFile := 0 })
    else
      (true, { s with records := recs, recordsFile := recs })

/-- The keyword arguments of `edit_record`; `none` = key absent. -/
structure EditFields where
  sender : Option String
  subject : Option String
  destination : Option String
  date : Option String
  status : Option String
  deriving Repr, DecidableEq

/-- Field update performed by `edit_record` on the matched record; note
that `status` is stored verbatim, with no normalization. -/
def editFields (f : EditFields) (r : DocumentRecord) : DocumentRecord :=
  { r with
    sender := f.sender.getD r.sender
    subject := f.subject.getD r.subject
    destination := f.destination.getD r.destination
    date := f.date.getD r.date
    status := f.status.getD r.status }

/-- Update the first record whose id matches; `none` when absent. -/
def editList (rid : String) (f : EditFields) : List DocumentRecord → Option (List DocumentRecord)
  | [] => none
  | r :: rest =>
    if r.id = rid then some (editFields f r :: rest)
    else (editList rid f rest).map (r :: ·)

/-- `RecordKeeper.edit_record`: partial update of the first matching
record, then `save_records`; unknown id → `False`. -/
def editRecord (rid : String) (f : EditFields) (s : KeeperState) : Bool × KeeperState :=
  match editList rid f s.records with
  | none => (false, s)
  | some recs => (true, { s with records := recs, recordsFile := recs })

/-! ## Search -/

/-- Does `hay` start with `needle`? -/
def listStarts : List Char → List Char → Bool
  | [], _ => true
  | _ :: _, [] => false
  | a :: as, b :: bs => a == b && listStarts as bs

/-- Is `needle` a contiguous substring of `hay` (Python `in` on `str`)? -/
def listInfixB (needle : List Char) : List Char → Bool
  | [] => needle.isEmpty
  | c :: rest => listStarts needle (c :: rest) || listInfixB needle rest

/-- Python `needle in hay` for strings. -/
def strContains (hay needle : String) : Bool :=
  listInfixB needle.data hay.data

/-- `RecordKeeper.search_records` (pure in the record list): empty
query returns a copy of the list, otherwise case-insensitive substring
match over id, date, sender, subject, destination. -/
def searchRecords (query : String) (records : List DocumentRecord) : List DocumentRecord :=
  if query = "" then records
  else
    let q := pyLower query
    records.filter fun r =>
      strContains (pyLower r.id) q || strContains (pyLower r.date) q ||
      strContains (pyLower r.sender) q || strContains (pyLower r.subject) q ||
      strContains (pyLower r.destination) q

/-! ## Statistics -/

/-- Return shape of `get_statistics`. -/
structure Stats where
  total_records : Nat
  unique_senders : Nat
  unique_destinations : Nat
  pending_count : Nat
  completed_count : Nat
  senders : List String
  destinations : List String
  deriving Repr, DecidableEq

/-- `RecordKeeper.get_statistics`: Python `set(... if truthy)` is
modelled as a deduplicated list (same cardinality and membership). -/
def getStatistics (records : List DocumentRecord) : Stats :=
  if records.isEmpty then
    { total_records := 0, unique_senders := 0, unique_destinations := 0,
      pending_count := 0, completed_count := 0, senders := [], destinations := [] }
  else
    let senders := (records.filterMap fun r =>
      if r.sender = "" then none else some r.sender).dedup
    let destinations := (records.filterMap fun r =>
      if r.destination = "" then none else some r.destination).dedup
    { total_records := records.length
      unique_senders := senders.length
      unique_destinations := destinations.length
      pending_count := records.countP (fun r => r.status == "Pending")
      completed_count := records.countP (fun r => r.status == "Completed")
      senders := senders
      destinations := destinations }

/-! ## Tabular import (`import_from_excel`)

Column-presence validation (`sender`/`subject` required, `to` aliasing
`destination`) happens before the row loop and aborts with no changes;
the model covers the loop itself, so a row carries the already-resolved
cells.  A cell is `Option String` (`none` = absent column or a cell
failing `pd.notna`).  Per-row extraction exceptions — the only source of
`error_count` — are modelled by `Except.error`. -/

structure ExcelRow where
  sender : Option String
  subject : Option String
  destination : Option String
  date : Option String
  deriving Repr, DecidableEq

/-- A possibly-raising row of the spreadsheet. -/
def RowInput : Type := Except Unit ExcelRow

/-- `str(row[col]).strip() if ... and pd.notna(row[col]) else ""`. -/
def cellStr (c : Option String) : String :=
  match c with
  | some v => pyStrip v
  | none => ""

/-- The date cell handling of the import loop. -/
def importDate (fallback : String → Option String) (c : Option String) : Option String :=
  match c with
  | some v => if pyStrip v = "" then none else parseAndFormatDate fallback (pyStrip v)
  | none => none

/-- Record built from a valid row
(`DocumentRecord(sender, subject, destination, date, auto_date=False)`). -/
def buildImportRecord (fallback : String → Option String) (r : ExcelRow) (counter : Nat) :
    DocumentRecord × Nat :=
  mkDocumentRecord "" (cellStr r.sender) (cellStr r.subject) (cellStr r.destination)
    (importDate fallback r.date) none false "Pending" counter

/-- One iteration of the import row loop over
`(records, counter, imported_count, error_count)`. -/
def importRowStep (fallback : String → Option String)
    (st : List DocumentRecord × Nat × Nat × Nat) (row : RowInput) :
    List DocumentRecord × Nat × Nat × Nat :=
  let (recs, counter, imported, errors) := st
  match row with
  | .error _ => (recs, counter, imported, errors + 1)
  | .ok r =>
    if cellStr r.sender = "" ∨ cellStr r.subject = "" then (recs, counter, imported, errors)
    else
      let (rec, c') := buildImportRecord fallback r counter
      (recs ++ [rec], c', imported + 1, errors)

/-- The import row loop (`for index, row in df.iterrows()`). -/
def importLoop (fallback : String → Option String) (rows : List RowInput)
    (st : List DocumentRecord × Nat × Nat × Nat) : List DocumentRecord × Nat × Nat × Nat :=
  rows.foldl (importRowStep fallback) st

/-- `RecordKeeper.import_from_excel` (after its column validation):
replace mode clears the collection and resets/persists the counter
first; on `imported_count > 0` the records are saved and the call
succeeds; on zero imports an additive call restores the pre-import
snapshot and fails. -/
def importFromExcel (fallback : String → Option String) (replaceExisting : Bool)
    (rows : List RowInput) (s : KeeperState) : Bool × KeeperState :=
  let s₁ : KeeperState :=
    if replaceExisting then
      { records := [], counter := 0, recordsFile := s.recordsFile, counterFile := 0 }
    else s
  let (recs, c', imported, _errors) := importLoop fallback rows (s₁.records, s₁.counter, 0, 0)
  if imported > 0 then
    (true, { records := recs, counter := c', recordsFile := recs, counterFile := s₁.counterFile })
  else if replaceExisting then
    (false, { records := recs, counter := c', recordsFile := s₁.recordsFile,
              counterFile := s₁.counterFile })
  else
    (false, { records := s.records, counter := c', recordsFile := s.recordsFile,
              counterFile := s.counterFile })

/-! ## Backup restore (`restore_from_backup`)

The archive-structure validation (`backup_info`/`records` present)
aborts before any mutation; the model covers the entry loop.  An entry
field is `Option String` (`dict.get` default; note: no `strip` here). -/

structure BackupEntry where
  sender : Option String
  subject : Option String
  destination : Option String
  date : Option String
  status : Option String
  deriving Repr, DecidableEq

/-- A possibly-raising backup entry. -/
def EntryInput : Type := Except Unit BackupEntry

/-- Record built from a valid backup entry (`auto_date=False`,
status restored subject to constructor normalization). -/
def buildRestoreRecord (e : BackupEntry) (counter : Nat) : DocumentRecord × Nat :=
  mkDocumentRecord "" (e.sender.getD "") (e.subject.getD "") (e.destination.getD "")
    e.date none false (e.status.getD "Pending") counter

/-- One iteration of the restore entry loop over
`(records, counter, restored_count, error_count)`. -/
def restoreRowStep (st : List DocumentRecord × Nat × Nat × Nat) (entry : EntryInput) :
    List DocumentRecord × Nat × Nat × Nat :=
  let (recs, counter, restored, errors) := st
  match entry with
  | .error _ => (recs, counter, restored, errors + 1)
  | .ok e =>
    if e.sender.getD "" = "" ∨ e.subject.getD "" = "" then (recs, counter, restored, errors)
    else
      let (rec, c') := buildRestoreRecord e counter
      (recs ++ [rec], c', restored + 1, errors)

/-- The restore entry loop. -/
def restoreLoop (entries : List EntryInput) (st : List DocumentRecord × Nat × Nat × Nat) :
    List DocumentRecord × Nat × Nat × Nat :=
  entries.foldl restoreRowStep st

/-- `RecordKeeper.restore_from_backup` (after its structure
validation); same replace/rollback policy as the tabular import. -/
def restoreFromBackup (replaceExisting : Bool) (entries : List EntryInput) (s : KeeperState) :
    Bool × KeeperState :=
  let s₁ : KeeperState :=
    if replaceExisting then
      { records := [], counter := 0, recordsFile := s.recordsFile, counterFile := 0 }
    else s
  let (recs, c', restored, _errors) := restoreLoop entries (s₁.records, s₁.counter, 0, 0)
  if restored > 0 then
    (true, { records := recs, counter := c', recordsFile := recs, counterFile := s₁.counterFile })
  else if replaceExisting then
    (false, { records := recs, counter := c', recordsFile := s₁.recordsFile,
              counterFile := s₁.counterFile })
  else
    (false, { records := s.records, counter := c', recordsFile := s.recordsFile,
              counterFile := s.counterFile })

/-! ## Loading and counter reconciliation -/

/-- Maximum numeric id suffix of the loaded records
(`max_counter` in `_initialize_counter_from_records`). -/
def maxSuffix (records : List DocumentRecord) : Nat :=
  records.foldl (fun m r =>
    match suffixOf r.id with
    | some k => max m k
    | none => m) 0

/-- `_initialize_counter_from_records` acting on the class counter
(`none` = Python `None`, the fresh-process value): empty collection →
untouched; otherwise raise to the maximum observed suffix. -/
def reconcileCounter (current : Option Nat) (records : List DocumentRecord) : Option Nat :=
  if records.isEmpty then current
  else
    some (match current with
      | none => maxSuffix records
      | some c => if maxSuffix records > c then maxSuffix records else c)

/-- A fresh process constructing `RecordKeeper()`: `load_records` (which
runs `_initialize_counter_from_records` and, for a non-empty record set,
`_save_counter`) followed by `_load_counter` reading the counter file.
`storedRecords` is the persisted record file's contents and
`counterFileVal` the persisted counter value (0 for a missing or
non-integral file, as in `_load_counter`). -/
def loadProcess (storedRecords : List DocumentRecord) (counterFileVal : Nat) : KeeperState :=
  match reconcileCounter none storedRecords with
  | none =>
    { records := storedRecords, counter := counterFileVal,
      recordsFile := storedRecords, counterFile := counterFileVal }
  | some c' =>
    { records := storedRecords, counter := c',
      recordsFile := storedRecords, counterFile := c' }

/-! ## Characterizing the import/restore loops -/

/-- A row that ends up valid: extraction succeeds and both required
fields are non-empty after stripping. -/
def rowValid (row : RowInput) : Bool :=
  match row with
  | .error _ => false
  | .ok r => if cellStr r.sender = "" ∨ cellStr r.subject = "" then false else true

/-- A row whose extraction raises. -/
def rowErrored (row : RowInput) : Bool :=
  match row with
  | .error _ => true
  | .ok _ => false

/-- Records produced by the valid rows, threaded through the counter. -/
def validImports (fallback : String → Option String) :
    List RowInput → Nat → List DocumentRecord × Nat
  | [], c => ([], c)
  | row :: rest, c =>
    match row with
    | .error _ => validImports fallback rest c
    | .ok r =>
      if cellStr r.sender = "" ∨ cellStr r.subject = "" then validImports fallback rest c
      else
        let (rec, c') := buildImportRecord fallback r c
        let (tl, c'') := validImports fallback rest c'
        (rec :: tl, c'')

/-- A backup entry that ends up valid. -/
def entryValid (entry : EntryInput) : Bool :=
  match entry with
  | .error _ => false
  | .ok e => if e.sender.getD "" = "" ∨ e.subject.getD "" = "" then false else true

/-- Records produced by the valid backup entries. -/
def validRestores : List EntryInput → Nat → List DocumentRecord × Nat
  | [], c => ([], c)
  | entry :: rest, c =>
    match entry with
    | .error _ => validRestores rest c
    | .ok e =>
      if e.sender.getD "" = "" ∨ e.subject.getD "" = "" then validRestores rest c
      else
        let (rec, c') := buildRestoreRecord e c
        let (tl, c'') := validRestores rest c'
        (rec :: tl, c'')

/-- A backup entry whose processing raises. -/
def entryErrored (entry : EntryInput) : Bool :=
  match entry with
  | .error _ => true
  | .ok _ => false

/-! ## The counter/suffix invariant of the claims -/

/-- The invariant asserted by the specification: every record's numeric
suffix is bounded by the class counter, every persisted record's suffix
is bounded by the persisted counter, and the persisted counter is at
least the class counter. -/
def storeInv (s : KeeperState) : Prop :=
  (∀ r ∈ s.records, (suffixOf r.id).getD 0 ≤ s.counter) ∧
  (∀ r ∈ s.recordsFile, (suffixOf r.id).getD 0 ≤ s.counterFile) ∧
  s.counter ≤ s.counterFile

instance (s : KeeperState) : Decidable (storeInv s) := by
  unfold storeInv
  infer_instance

/-! ## Search: the claim-side matching predicate -/

/-- Matching predicate as the specification words it: the lowercased
query is a substring of at least one of the five lowercased fields. -/
def claimMatches (query : String) (r : DocumentRecord) : Bool :=
  strContains (pyLower r.id) (pyLower query) || strContains (pyLower r.date) (pyLower query) ||
  strContains (pyLower r.sender) (pyLower query) ||
  strContains (pyLower r.subject) (pyLower query) ||
  strContains (pyLower r.destination) (pyLower query)

/-! ## Example records used in closed-instance theorems -/

/-- Sample record used by the search example of the specification. -/
def aliceRecord : DocumentRecord :=
  { id := "MAYOR'S OFFICE - 001", date := "2025-01-07", sender := "Alice",
    subject := "Budget", destination := "Finance", status := "Pending" }

/-- Sample stored record with suffix `057`. -/
def rec057 : DocumentRecord :=
  { id := "MAYOR'S OFFICE - 057", date := "2025-01-07", sender := "A",
    subject := "B", destination := "C", status := "Pending" }

/-- The empty keeper state (fresh store, counter 0 everywhere). -/
def emptyState : KeeperState :=
  { records := [], counter := 0, recordsFile := [], counterFile := 0 }

/-- Sample record with an empty destination. -/
def emptyDestRecord : DocumentRecord :=
  { id := "MAYOR'S OFFICE - 001", date := "2025-01-07", sender := "A",
    subject := "B", destination := "", status := "Pending" }

/-- Three import rows of which the second has an empty subject. -/
def skipRows : List RowInput :=
  [Except.ok { sender := some "A", subject := some "S1", destination := none, date := none },
   Except.ok { sender := some "B", subject := some "", destination := none, date := none },
   Except.ok { sender := some "C", subject := some "S3", destination := none, date := none }]

/-- An import batch whose first row raises during extraction. -/
def errorRows : List RowInput :=
  [Except.error (),
   Except.ok { sender := some "D", subject := some "S4", destination := none, date := none },
   Except.ok { sender := some "E", subject := some "S5", destination := none, date := none }]

/-- An import batch with no valid row (empty sender / empty subject). -/
def invalidRows : List RowInput :=
  [Except.ok { sender := some "", subject := some "S1", destination := none, date := none },
   Except.ok { sender := some "F", subject := none, destination := none, date := none }]

/-- A single valid import row. -/
def oneGoodRow : List RowInput :=
  [Except.ok { sender := some "G", subject := some "S6", destination := some "Ops",
               date := none }]

theorem digitChar_toNat {d : Nat} (h : d < 10) : (digitChar d).toNat = 48 + d := by
  interval_cases d <;> rfl

theorem digitChar_isDigit {d : Nat} (h : d < 10) : (digitChar d).isDigit = true := by
  interval_cases d <;> rfl

theorem parseDigits_append (xs ys : List Char) :
    parseDigits (xs ++ ys) = ys.foldl (fun a c => 10 * a + (c.toNat - 48)) (parseDigits xs) := by
  simp [parseDigits, List.foldl_append]

theorem natDigitsAux_spec (fuel : Nat) : ∀ n, n < fuel →
    parseDigits (natDigitsAux fuel n) = n ∧ natDigitsAux fuel n ≠ [] ∧
    ∀ c ∈ natDigitsAux fuel n, c.isDigit = true := by
  induction fuel with
  | zero => intro n hn; omega
  | succ fuel ih =>
    intro n hn
    rw [natDigitsAux]
    by_cases h : n < 10
    · simp only [h, if_pos]
      refine ⟨by simp [parseDigits, digitChar_toNat h], by simp, ?_⟩
      intro c hc
      simp only [List.mem_singleton] at hc
      subst hc
      exact digitChar_isDigit h
    · simp only [h, if_neg, not_false_iff]
      have hdiv : n / 10 < fuel := by
        have := Nat.div_lt_self (show 0 < n by omega) (show 1 < 10 by omega)
        omega
      obtain ⟨h1, _h2, h3⟩ := ih (n / 10) hdiv
      refine ⟨?_, by simp, ?_⟩
      · rw [parseDigits_append, List.foldl_cons, List.foldl_nil, h1,
          digitChar_toNat (Nat.mod_lt n (by omega))]
        omega
      · intro c hc
        rcases List.mem_append.mp hc with ha | hb
        · exact h3 c ha
        · simp only [List.mem_singleton] at hb
          subst hb
          exact digitChar_isDigit (Nat.mod_lt n (by omega))

theorem parseDigits_natDigits (n : Nat) : parseDigits (natDigits n) = n :=
  (natDigitsAux_spec (n + 1) n (Nat.lt_succ_self n)).1

theorem natDigits_all_digit (n : Nat) : ∀ c ∈ natDigits n, c.isDigit = true :=
  (natDigitsAux_spec (n + 1) n (Nat.lt_succ_self n)).2.2

theorem natDigits_ne_nil (n : Nat) : natDigits n ≠ [] :=
  (natDigitsAux_spec (n + 1) n (Nat.lt_succ_self n)).2.1

theorem parseDigits_replicate_zero (k : Nat) (ds : List Char) :
    parseDigits (List.replicate k '0' ++ ds) = parseDigits ds := by
  induction k with
  | zero => simp
  | succ k ih =>
    simp only [List.replicate_succ, List.cons_append]
    show parseDigits ('0' :: (List.replicate k '0' ++ ds)) = parseDigits ds
    simpa [parseDigits] using ih

theorem padNum_digits (w n : Nat) : ∀ c ∈ (padNum w n).data, c.isDigit = true := by
  intro c hc
  simp only [padNum, String.data] at hc
  rcases List.mem_append.mp hc with h1 | h2
  · simp only [List.mem_replicate] at h1
    simp [h1.2]
  · exact natDigits_all_digit n c h2

theorem padNum_ne_nil (w n : Nat) : (padNum w n).data ≠ [] := by
  simp only [padNum, String.data]
  intro h
  rcases List.append_eq_nil.mp h with ⟨_, h2⟩
  exact natDigits_ne_nil n h2

theorem parseDigits_padNum (w n : Nat) : parseDigits (padNum w n).data = n := by
  simp only [padNum, String.data]
  rw [parseDigits_replicate_zero, parseDigits_natDigits]

theorem startsSep_cons₃ (a b c : Char) (r : List Char) :
    startsSep (a :: b :: c :: r) = (a == ' ' && b == '-' && c == ' ') := rfl

theorem startsSep_head {c : Char} {rest : List Char} (h : c ≠ ' ') :
    startsSep (c :: rest) = false := by
  match rest with
  | [] => rfl
  | [_] => rfl
  | b :: d :: t =>
    rw [startsSep_cons₃]
    have : (c == ' ') = false := by
      simp [h]
    simp [this]

theorem splitDashAux_fuel : ∀ fuel fuel' : Nat, ∀ s acc : List Char,
    s.length < fuel → s.length < fuel' →
    splitDashAux fuel s acc = splitDashAux fuel' s acc := by
  intro fuel
  induction fuel with
  | zero => intro fuel' s acc h _; omega
  | succ fuel ih =>
    intro fuel' s acc h h'
    match fuel', s with
    | 0, s => omega
    | fuel' + 1, [] => rfl
    | fuel' + 1, c :: rest =>
      rw [splitDashAux, splitDashAux]
      simp only [List.length_cons] at h h'
      by_cases hs : startsSep (c :: rest)
      · simp only [hs, if_pos]
        rw [ih fuel' ((c :: rest).drop 3) [] (by simp; omega) (by simp; omega)]
      · simp only [hs, if_neg, Bool.not_eq_true]
        rw [ih fuel' rest (c :: acc) (by omega) (by omega)]

theorem splitDash_nil (acc : List Char) : splitDash [] acc = [acc.reverse] := rfl

theorem splitDash_sep (rest acc : List Char) :
    splitDash (' ' :: '-' :: ' ' :: rest) acc = acc.reverse :: splitDash rest [] := by
  show splitDashAux (rest.length + 4) (' ' :: '-' :: ' ' :: rest) acc = _
  rw [splitDashAux]
  simp only [startsSep_cons₃, beq_self_eq_true, Bool.and_self, if_pos, List.drop_succ_cons,
    List.drop_zero]
  rw [splitDashAux_fuel (rest.length + 3) (rest.length + 1) rest [] (by omega) (by omega)]
  rfl

theorem splitDash_step {c : Char} {rest : List Char} (h : startsSep (c :: rest) = false)
    (acc : List Char) : splitDash (c :: rest) acc = splitDash rest (c :: acc) := by
  show splitDashAux (rest.length + 2) (c :: rest) acc = _
  rw [splitDashAux]
  simp only [h, if_neg, Bool.false_eq_true, not_false_iff]
  exact splitDashAux_fuel (rest.length + 1) (rest.length + 1) rest (c :: acc)
    (by omega) (by omega)

theorem splitDash_no_space (ds : List Char) (h : ∀ c ∈ ds, c ≠ ' ') :
    ∀ acc, splitDash ds acc = [acc.reverse ++ ds] := by
  induction ds with
  | nil => intro acc; simp [splitDash_nil]
  | cons c t ih =>
    intro acc
    rw [splitDash_step (startsSep_head (h c (List.mem_cons_self c t))) acc,
      ih (fun x hx => h x (List.mem_cons_of_mem c hx)) (c :: acc)]
    simp

theorem generateId_data (n : Nat) :
    (generateId n).data =
      'M' :: 'A' :: 'Y' :: 'O' :: 'R' :: '\'' :: 'S' :: ' ' :: 'O' :: 'F' :: 'F' ::
      'I' :: 'C' :: 'E' :: ' ' :: '-' :: ' ' :: (padNum 3 n).data := by
  have : (generateId n).data = "MAYOR'S OFFICE - ".data ++ (padNum 3 n).data := by
    simp [generateId]
  rw [this]
  rfl

theorem suffixOf_generateId (n : Nat) : suffixOf (generateId n) = some n := by
  have hds : ∀ c ∈ (padNum 3 n).data, c ≠ ' ' := by
    intro c hc
    have := padNum_digits 3 n c hc
    intro he
    subst he
    simp [Char.isDigit] at this
  have hsplit : splitDash (generateId n).data [] =
      ["MAYOR'S OFFICE".data, (padNum 3 n).data] := by
    rw [generateId_data]
    rw [splitDash_step (by rw [startsSep_cons₃]; decide) _,
      splitDash_step (by rw [startsSep_cons₃]; decide) _,
      splitDash_step (by rw [startsSep_cons₃]; decide) _,
      splitDash_step (by rw [startsSep_cons₃]; decide) _,
      splitDash_step (by rw [startsSep_cons₃]; decide) _,
      splitDash_step (by rw [startsSep_cons₃]; decide) _,
      splitDash_step (by rw [startsSep_cons₃]; decide) _,
      splitDash_step (by rw [startsSep_cons₃]; decide) _,
      splitDash_step (by rw [startsSep_cons₃]; decide) _,
      splitDash_step (by rw [startsSep_cons₃]; decide) _,
      splitDash_step (by rw [startsSep_cons₃]; decide) _,
      splitDash_step (by rw [startsSep_cons₃]; decide) _,
      splitDash_step (by rw [startsSep_cons₃]; decide) _,
      splitDash_step (by rw [startsSep_cons₃]; decide) _,
      splitDash_sep _ _,
      splitDash_no_space (padNum 3 n).data hds []]
    rfl
  rw [suffixOf, hsplit]
  have hall : (padNum 3 n).data.all (·.isDigit) = true := by
    rw [List.all_eq_true]
    exact padNum_digits 3 n
  simp [padNum_ne_nil 3 n, hall, parseDigits_padNum]

theorem buildImportRecord_id (fallback : String → Option String) (r : ExcelRow) (c : Nat) :
    (buildImportRecord fallback r c).1.id = generateId (c + 1) := rfl

theorem buildImportRecord_counter (fallback : String → Option String) (r : ExcelRow) (c : Nat) :
    (buildImportRecord fallback r c).2 = c + 1 := rfl

theorem rowValid_error (err : Unit) : rowValid (.error err) = false := rfl

theorem rowErrored_error (err : Unit) : rowErrored (.error err) = true := rfl

theorem rowErrored_ok (r : ExcelRow) : rowErrored (.ok r) = false := rfl

theorem rowValid_ok_skip {r : ExcelRow} (h : cellStr r.sender = "" ∨ cellStr r.subject = "") :
    rowValid (.ok r) = false := by
  simp [rowValid, h]

theorem rowValid_ok_keep {r : ExcelRow} (h : ¬(cellStr r.sender = "" ∨ cellStr r.subject = "")) :
    rowValid (.ok r) = true := by
  simp [rowValid, h]

theorem validImports_counter (fallback : String → Option String) (rows : List RowInput) :
    ∀ c, (validImports fallback rows c).2 = c + rows.countP rowValid := by
  induction rows with
  | nil => intro c; simp [validImports]
  | cons row rest ih =>
    intro c
    match row with
    | .error e =>
      rw [show validImports fallback (.error e :: rest) c = validImports fallback rest c
          from rfl, ih c, List.countP_cons_of_neg _ _ (by simp [rowValid_error])]
    | .ok r =>
      by_cases h : cellStr r.sender = "" ∨ cellStr r.subject = ""
      · rw [show validImports fallback (.ok r :: rest) c = validImports fallback rest c by
          simp [validImports, h], ih c,
          List.countP_cons_of_neg _ _ (by simp [rowValid_ok_skip h])]
      · rw [show validImports fallback (.ok r :: rest) c =
              ((buildImportRecord fallback r c).1 :: (validImports fallback rest (c + 1)).1,
               (validImports fallback rest (c + 1)).2) by
            simp [validImports, h, buildImportRecord_counter],
          List.countP_cons_of_pos _ _ (rowValid_ok_keep h)]
        show (validImports fallback rest (c + 1)).2 = _
        rw [ih (c + 1)]
        omega

theorem importLoop_eq (fallback : String → Option String) (rows : List RowInput) :
    ∀ recs c i e, importLoop fallback rows (recs, c, i, e) =
      (recs ++ (validImports fallback rows c).1, (validImports fallback rows c).2,
       i + rows.countP rowValid, e + rows.countP rowErrored) := by
  induction rows with
  | nil => intro recs c i e; simp [importLoop, validImports]
  | cons row rest ih =>
    intro recs c i e
    show importLoop fallback rest (importRowStep fallback (recs, c, i, e) row) = _
    match row with
    | .error err =>
      rw [show importRowStep fallback (recs, c, i, e) (.error err) = (recs, c, i, e + 1) from rfl,
        ih recs c i (e + 1),
        show validImports fallback (.error err :: rest) c = validImports fallback rest c from rfl,
        List.countP_cons_of_neg _ _ (by simp [rowValid_error]),
        List.countP_cons_of_pos _ _ (rowErrored_error err)]
      simp only [Prod.mk.injEq, true_and, and_true]
      omega
    | .ok r =>
      by_cases h : cellStr r.sender = "" ∨ cellStr r.subject = ""
      · rw [show importRowStep fallback (recs, c, i, e) (.ok r) = (recs, c, i, e) by
          simp [importRowStep, h], ih recs c i e,
          show validImports fallback (.ok r :: rest) c = validImports fallback rest c by
            simp [validImports, h],
          List.countP_cons_of_neg _ _ (by simp [rowValid_ok_skip h]),
          List.countP_cons_of_neg _ _ (by simp [rowErrored_ok])]
      · rw [show importRowStep fallback (recs, c, i, e) (.ok r) =
            (recs ++ [(buildImportRecord fallback r c).1], (buildImportRecord fallback r c).2,
              i + 1, e) by
          simp [importRowStep, h], ih,
          show validImports fallback (.ok r :: rest) c =
              ((buildImportRecord fallback r c).1 :: (validImports fallback rest (c + 1)).1,
               (validImports fallback rest (c + 1)).2) by
            simp [validImports, h, buildImportRecord_counter],
          List.countP_cons_of_pos _ _ (rowValid_ok_keep h),
          List.countP_cons_of_neg _ _ (by simp [rowErrored_ok]),
          buildImportRecord_counter]
        simp only [Prod.mk.injEq, List.append_assoc, List.singleton_append, true_and, and_true]
        omega

theorem validImports_suffix_bound (fallback : String → Option String) (rows : List RowInput) :
    ∀ c, ∀ r ∈ (validImports fallback rows c).1,
      (suffixOf r.id).getD 0 ≤ (validImports fallback rows c).2 := by
  induction rows with
  | nil => intro c r hr; simp [validImports] at hr
  | cons row rest ih =>
    intro c r hr
    match row with
    | .error e => exact ih c r hr
    | .ok row' =>
      by_cases h : cellStr row'.sender = "" ∨ cellStr row'.subject = ""
      · simp only [validImports, h, if_pos] at hr ⊢
        exact ih c r hr
      · simp only [validImports, h, if_neg, not_false_iff] at hr ⊢
        rcases List.mem_cons.mp hr with heq | hmem
        · subst heq
          rw [buildImportRecord_id, suffixOf_generateId]
          rw [validImports_counter, show (buildImportRecord fallback row' c).2 = c + 1 from rfl]
          simp
        · have := ih (buildImportRecord fallback row' c).2 r hmem
          exact this

theorem buildRestoreRecord_id (e : BackupEntry) (c : Nat) :
    (buildRestoreRecord e c).1.id = generateId (c + 1) := rfl

theorem buildRestoreRecord_counter (e : BackupEntry) (c : Nat) :
    (buildRestoreRecord e c).2 = c + 1 := rfl

theorem entryValid_ok_keep {e : BackupEntry}
    (h : ¬(e.sender.getD "" = "" ∨ e.subject.getD "" = "")) : entryValid (.ok e) = true := by
  simp [entryValid, h]

theorem validRestores_counter (entries : List EntryInput) :
    ∀ c, (validRestores entries c).2 = c + entries.countP entryValid := by
  induction entries with
  | nil => intro c; simp [validRestores]
  | cons entry rest ih =>
    intro c
    match entry with
    | .error e =>
      rw [show validRestores (.error e :: rest) c = validRestores rest c from rfl, ih c,
        List.countP_cons_of_neg _ _ (by simp [entryValid])]
    | .ok e =>
      by_cases h : e.sender.getD "" = "" ∨ e.subject.getD "" = ""
      · rw [show validRestores (.ok e :: rest) c = validRestores rest c by
          simp [validRestores, h], ih c,
          List.countP_cons_of_neg _ _ (by simp [entryValid, h])]
      · rw [show validRestores (.ok e :: rest) c =
              ((buildRestoreRecord e c).1 :: (validRestores rest (c + 1)).1,
               (validRestores rest (c + 1)).2) by
            simp [validRestores, h, buildRestoreRecord_counter],
          List.countP_cons_of_pos _ _ (entryValid_ok_keep h)]
        show (validRestores rest (c + 1)).2 = _
        rw [ih (c + 1)]
        omega

theorem restoreLoop_eq (entries : List EntryInput) :
    ∀ recs c i e, restoreLoop entries (recs, c, i, e) =
      (recs ++ (validRestores entries c).1, (validRestores entries c).2,
       i + entries.countP entryValid, e + entries.countP entryErrored) := by
  induction entries with
  | nil => intro recs c i e; simp [restoreLoop, validRestores]
  | cons entry rest ih =>
    intro recs c i e
    show restoreLoop rest (restoreRowStep (recs, c, i, e) entry) = _
    match entry with
    | .error err =>
      rw [show restoreRowStep (recs, c, i, e) (.error err) = (recs, c, i, e + 1) from rfl,
        ih recs c i (e + 1),
        show validRestores (.error err :: rest) c = validRestores rest c from rfl,
        List.countP_cons_of_neg _ _ (by simp [entryValid]),
        List.countP_cons_of_pos _ _ (show entryErrored (.error err) = true from rfl)]
      simp only [Prod.mk.injEq, true_and, and_true]
      omega
    | .ok ent =>
      by_cases h : ent.sender.getD "" = "" ∨ ent.subject.getD "" = ""
      · rw [show restoreRowStep (recs, c, i, e) (.ok ent) = (recs, c, i, e) by
          simp [restoreRowStep, h], ih recs c i e,
          show validRestores (.ok ent :: rest) c = validRestores rest c by
            simp [validRestores, h],
          List.countP_cons_of_neg _ _ (by simp [entryValid, h]),
          List.countP_cons_of_neg _ _ (show ¬entryErrored (.ok ent) = true by
            simp [entryErrored])]
      · rw [show restoreRowStep (recs, c, i, e) (.ok ent) =
            (recs ++ [(buildRestoreRecord ent c).1], (buildRestoreRecord ent c).2, i + 1, e) by
          simp [restoreRowStep, h], ih,
          show validRestores (.ok ent :: rest) c =
              ((buildRestoreRecord ent c).1 :: (validRestores rest (c + 1)).1,
               (validRestores rest (c + 1)).2) by
            simp [validRestores, h, buildRestoreRecord_counter],
          List.countP_cons_of_pos _ _ (entryValid_ok_keep h),
          List.countP_cons_of_neg _ _ (show ¬entryErrored (.ok ent) = true by
            simp [entryErrored]),
          buildRestoreRecord_counter]
        simp only [Prod.mk.injEq, List.append_assoc, List.singleton_append, true_and, and_true]
        omega

theorem validRestores_suffix_bound (entries : List EntryInput) :
    ∀ c, ∀ r ∈ (validRestores entries c).1,
      (suffixOf r.id).getD 0 ≤ (validRestores entries c).2 := by
  induction entries with
  | nil => intro c r hr; simp [validRestores] at hr
  | cons entry rest ih =>
    intro c r hr
    match entry with
    | .error e => exact ih c r hr
    | .ok e =>
      by_cases h : e.sender.getD "" = "" ∨ e.subject.getD "" = ""
      · simp only [validRestores, h, if_pos] at hr ⊢
        exact ih c r hr
      · simp only [validRestores, h, if_neg, not_false_iff] at hr ⊢
        rcases List.mem_cons.mp hr with heq | hmem
        · subst heq
          rw [buildRestoreRecord_id, suffixOf_generateId]
          rw [validRestores_counter, buildRestoreRecord_counter]
          simp
        · exact ih (buildRestoreRecord e c).2 r hmem

/-! ## Lemmas about delete and edit -/

theorem deleteList_subset (rid : String) :
    ∀ l l', deleteList rid l = some l' → ∀ x ∈ l', x ∈ l := by
  intro l
  induction l with
  | nil => intro l' h; simp [deleteList] at h
  | cons r rest ih =>
    intro l' h x hx
    by_cases hr : r.id = rid
    · simp only [deleteList, hr, if_pos] at h
      cases h
      exact List.mem_cons_of_mem r hx
    · simp only [deleteList, hr, if_neg, not_false_iff, Option.map_eq_some'] at h
      obtain ⟨l'', hl'', rfl⟩ := h
      rcases List.mem_cons.mp hx with rfl | hx'
      · exact List.mem_cons_self _ _
      · exact List.mem_cons_of_mem r (ih l'' hl'' x hx')

theorem editList_ids (rid : String) (f : EditFields) :
    ∀ l l', editList rid f l = some l' → l'.map (·.id) = l.map (·.id) := by
  intro l
  induction l with
  | nil => intro l' h; simp [editList] at h
  | cons r rest ih =>
    intro l' h
    by_cases hr : r.id = rid
    · simp only [editList, hr, if_pos] at h
      cases h
      simp [editFields]
    · simp only [editList, hr, if_neg, not_false_iff, Option.map_eq_some'] at h
      obtain ⟨l'', hl'', rfl⟩ := h
      simp [ih l'' hl'']

/-- Closed form of an additive (`replace_existing=False`) import. -/
theorem importFromExcel_additive (fallback : String → Option String) (rows : List RowInput)
    (s : KeeperState) :
    importFromExcel fallback false rows s =
      if 0 < rows.countP rowValid then
        (true, { records := s.records ++ (validImports fallback rows s.counter).1,
                 counter := s.counter + rows.countP rowValid,
                 recordsFile := s.records ++ (validImports fallback rows s.counter).1,
                 counterFile := s.counterFile })
      else
        (false, { records := s.records, counter := s.counter + rows.countP rowValid,
                  recordsFile := s.recordsFile, counterFile := s.counterFile }) := by
  unfold importFromExcel
  rw [show (if (false : Bool) = true then
      ({ records := [], counter := 0, recordsFile := s.recordsFile,
         counterFile := 0 } : KeeperState) else s) = s from rfl]
  dsimp only
  rw [importLoop_eq fallback rows s.records s.counter 0 0]
  simp only [Nat.zero_add, validImports_counter]
  by_cases h : 0 < rows.countP rowValid
  · rw [if_pos h, if_pos (by omega : rows.countP rowValid > 0)]
  · rw [if_neg h, if_neg (by omega : ¬rows.countP rowValid > 0)]
    rfl

/-- Closed form of an additive (`replace_existing=False`) restore. -/
theorem restoreFromBackup_additive (entries : List EntryInput) (s : KeeperState) :
    restoreFromBackup false entries s =
      if 0 < entries.countP entryValid then
        (true, { records := s.records ++ (validRestores entries s.counter).1,
                 counter := s.counter + entries.countP entryValid,
                 recordsFile := s.records ++ (validRestores entries s.counter).1,
                 counterFile := s.counterFile })
      else
        (false, { records := s.records, counter := s.counter + entries.countP entryValid,
                  recordsFile := s.recordsFile, counterFile := s.counterFile }) := by
  unfold restoreFromBackup
  rw [show (if (false : Bool) = true then
      ({ records := [], counter := 0, recordsFile := s.recordsFile,
         counterFile := 0 } : KeeperState) else s) = s from rfl]
  dsimp only
  rw [restoreLoop_eq entries s.records s.counter 0 0]
  simp only [Nat.zero_add, validRestores_counter]
  by_cases h : 0 < entries.countP entryValid
  · rw [if_pos h, if_pos (by omega : entries.countP entryValid > 0)]
  · rw [if_neg h, if_neg (by omega : ¬entries.countP entryValid > 0)]
    rfl

theorem listInfixB_nil (hay : List Char) : listInfixB [] hay = true := by
  cases hay <;> simp [listInfixB, listStarts]

theorem claimMatches_empty (r : DocumentRecord) : claimMatches "" r = true := by
  have h : pyLower "" = "" := rfl
  simp [claimMatches, h, strContains, listInfixB_nil]

/-! ## Claim theorems -/

/-- C9: `search_records` returns exactly the records whose lowercased
id, date, sender, subject or destination contains the lowercased query
as a substring (OR semantics); the empty query returns all records; the
result is a filter of the collection, hence preserves insertion order.
A record with sender "Alice" and subject "Budget" is returned by
`search("alice")`, `search("BUDGET")` and `search("alic")` but not by
`search("xyz")`. -/
theorem c9_search_or_across_fields :
    (∀ query records, searchRecords query records = records.filter (claimMatches query)) ∧
    (∀ records, searchRecords "" records = records) ∧
    searchRecords "alice" [aliceRecord] = [aliceRecord] ∧
    searchRecords "BUDGET" [aliceRecord] = [aliceRecord] ∧
    searchRecords "alic" [aliceRecord] = [aliceRecord] ∧
    searchRecords "xyz" [aliceRecord] = [] := by
  have hfilter : ∀ query records,
      searchRecords query records = records.filter (claimMatches query) := by
    intro query records
    by_cases hq : query = ""
    · subst hq
      rw [show searchRecords "" records = records from rfl]
      rw [List.filter_eq_self.mpr (fun r _ => claimMatches_empty r)]
    · simp only [searchRecords, hq, if_neg, not_false_iff]
      rfl
  refine ⟨hfilter, ?_, by decide, by decide, by decide, by decide⟩
  intro records
  rw [hfilter "" records, List.filter_eq_self.mpr (fun r _ => claimMatches_empty r)]

/-- C10: `get_statistics` counts only non-empty values in its distinct
sets: every record contributes to `total_records` and to the status
counts, but an empty sender/destination is excluded from the distinct
sets and lists; a non-empty collection whose destinations are all empty
reports `unique_destinations = 0`. -/
theorem c10_statistics_nonempty_only :
    (∀ records : List DocumentRecord,
      "" ∉ (getStatistics records).senders ∧ "" ∉ (getStatistics records).destinations) ∧
    (∀ records : List DocumentRecord,
      (getStatistics records).total_records = records.length ∧
      (getStatistics records).pending_count
        = records.countP (fun r => r.status == "Pending") ∧
      (getStatistics records).completed_count
        = records.countP (fun r => r.status == "Completed")) ∧
    (∀ records : List DocumentRecord, records ≠ [] → (∀ r ∈ records, r.destination = "") →
      (getStatistics records).unique_destinations = 0 ∧
      (getStatistics records).destinations = []) := by
  refine ⟨?_, ?_, ?_⟩
  · intro records
    by_cases h : records.isEmpty
    · simp [getStatistics, h]
    · have hfalse : records.isEmpty = false := by
        revert h; cases records.isEmpty <;> simp
      simp only [getStatistics, hfalse, Bool.false_eq_true, if_false]
      constructor
      · intro hmem
        rw [List.mem_dedup] at hmem
        obtain ⟨r, _, hr⟩ := List.mem_filterMap.mp hmem
        by_cases hs : r.sender = "" <;> simp [hs] at hr
      · intro hmem
        rw [List.mem_dedup] at hmem
        obtain ⟨r, _, hr⟩ := List.mem_filterMap.mp hmem
        by_cases hs : r.destination = "" <;> simp [hs] at hr
  · intro records
    by_cases h : records.isEmpty
    · have : records = [] := List.isEmpty_iff.mp h
      subst this
      simp [getStatistics]
    · simp [getStatistics, h]
  · intro records hne hall
    have h : records.isEmpty = false := by
      cases records with
      | nil => exact absurd rfl hne
      | cons a l => rfl
    have hnil : (records.filterMap fun r =>
        if r.destination = "" then none else some r.destination) = [] := by
      rw [List.filterMap_eq_nil_iff]
      intro r hr
      simp [hall r hr]
    simp [getStatistics, h, hnil]

/-- C7: deleting the only record empties the collection, resets the
allocator counter (in memory and on disk), and the next `add` mints the
id with numeric suffix 001; a delete that leaves records does not touch
the counter. -/
theorem c7_delete_to_empty_resets :
    (∀ (s : KeeperState) (r : DocumentRecord) (now sender subject destination : String)
      (date : Option String), s.records = [r] →
      (deleteRecord r.id s).1 = true ∧
      (deleteRecord r.id s).2.records = [] ∧
      (deleteRecord r.id s).2.counter = 0 ∧
      (deleteRecord r.id s).2.counterFile = 0 ∧
      (addRecord now sender subject destination date (deleteRecord r.id s).2).1.id
        = "MAYOR'S OFFICE - 001" ∧
      suffixOf (addRecord now sender subject destination date (deleteRecord r.id s).2).1.id
        = some 1) ∧
    (∀ (rid : String) (s : KeeperState), (deleteRecord rid s).2.records ≠ [] →
      (deleteRecord rid s).2.counter = s.counter ∧
      (deleteRecord rid s).2.counterFile = s.counterFile) := by
  constructor
  · intro s r now sender subject destination date hs
    have hdel : deleteRecord r.id s =
        (true, { records := [], counter := 0, recordsFile := [], counterFile := 0 }) := by
      unfold deleteRecord
      rw [hs]
      simp [deleteList]
    rw [hdel]
    refine ⟨rfl, rfl, rfl, rfl, ?_, ?_⟩
    · rfl
    · rw [show (addRecord now sender subject destination date
        { records := [], counter := 0, recordsFile := [], counterFile := 0 }).1.id
          = generateId 1 from rfl, suffixOf_generateId]
  · intro rid s hne
    unfold deleteRecord at hne ⊢
    match hd : deleteList rid s.records with
    | none => simp [hd]
    | some recs =>
      simp only [hd] at hne ⊢
      by_cases he : recs.isEmpty
      · simp only [he, if_pos] at hne
        exact absurd (List.isEmpty_iff.mp he) hne
      · simp [he]

/-- C3 counterexample: `add_record` performs no validation — calling it
with empty sender and subject on an empty store appends a record (the
claim says the call is rejected and nothing is added). -/
theorem c3_counterexample :
    (addRecord "2025-01-01 00:00:00" "" "" "X" none emptyState).2.records.length = 1 ∧
    (addRecord "2025-01-01 00:00:00" "" "" "X" none emptyState).1.sender = "" ∧
    (addRecord "2025-01-01 00:00:00" "" "" "X" none emptyState).1.subject = "" := by
  decide

/-- C3 (amended): `add_record` validates nothing: for every call —
including one with empty sender or subject — a record carrying the
given fields is created with the allocator-assigned id (numeric suffix
`counter + 1`) and appended to the collection; the collection and
counter are persisted. -/
theorem c3_add_always_appends (now sender subject destination : String)
    (date : Option String) (s : KeeperState) :
    (addRecord now sender subject destination date s).2.records
      = s.records ++ [(addRecord now sender subject destination date s).1] ∧
    (addRecord now sender subject destination date s).1.id = generateId (s.counter + 1) ∧
    suffixOf (addRecord now sender subject destination date s).1.id = some (s.counter + 1) ∧
    (addRecord now sender subject destination date s).1.sender = sender ∧
    (addRecord now sender subject destination date s).1.subject = subject ∧
    (addRecord now sender subject destination date s).2.counter = s.counter + 1 ∧
    (addRecord now sender subject destination date s).2.recordsFile
      = (addRecord now sender subject destination date s).2.records ∧
    (addRecord now sender subject destination date s).2.counterFile = s.counter + 1 := by
  refine ⟨rfl, rfl, ?_, rfl, rfl, rfl, rfl, rfl⟩
  rw [show (addRecord now sender subject destination date s).1.id
    = generateId (s.counter + 1) from rfl, suffixOf_generateId]

/-- C2 counterexample: `edit_record` persists the provided status
verbatim — editing the sole record with status `"Garbage"` succeeds and
stores `"Garbage"`, a value outside {Pending, Completed} (the claim
says the invariant is preserved by `edit` with an arbitrary status). -/
theorem c2_counterexample :
    (editRecord "MAYOR'S OFFICE - 001"
        { sender := none, subject := none, destination := none, date := none,
          status := some "Garbage" }
        { records := [aliceRecord], counter := 1,
          recordsFile := [aliceRecord], counterFile := 1 }).1 = true ∧
    (editRecord "MAYOR'S OFFICE - 001"
        { sender := none, subject := none, destination := none, date := none,
          status := some "Garbage" }
        { records := [aliceRecord], counter := 1,
          recordsFile := [aliceRecord], counterFile := 1 }).2.records.map (·.status)
      = ["Garbage"] ∧
    (editRecord "MAYOR'S OFFICE - 001"
        { sender := none, subject := none, destination := none, date := none,
          status := some "Garbage" }
        { records := [aliceRecord], counter := 1,
          recordsFile := [aliceRecord], counterFile := 1 }).2.recordsFile.map (·.status)
      = ["Garbage"] ∧
    ("Garbage" ≠ "Pending" ∧ "Garbage" ≠ "Completed") := by
  refine ⟨rfl, rfl, rfl, by decide⟩

/-- C2 (amended): the constructor normalizes the status — `"Done"` and
`"Completed"` are stored as `"Completed"`, every other value as
`"Pending"` — so any record built via the constructor (add, import,
restore, load) has status in {Pending, Completed}; but `edit_record`
stores the provided status value verbatim, so an edit can persist an
arbitrary status string. -/
theorem c2_status_normalization :
    (∀ (now sender subject destination : String) (date recordId : Option String)
      (autoDate : Bool) (status : String) (c : Nat),
      (mkDocumentRecord now sender subject destination date recordId autoDate status c).1.status
          = "Pending" ∨
      (mkDocumentRecord now sender subject destination date recordId autoDate status c).1.status
          = "Completed") ∧
    (∀ (now sender subject destination : String) (date recordId : Option String)
      (autoDate : Bool) (c : Nat),
      (mkDocumentRecord now sender subject destination date recordId autoDate "Done" c).1.status
        = "Completed") ∧
    (∀ (now sender subject destination : String) (date recordId : Option String)
      (autoDate : Bool) (status : String) (c : Nat),
      status ≠ "Done" → status ≠ "Completed" →
      (mkDocumentRecord now sender subject destination date recordId autoDate status c).1.status
        = "Pending") ∧
    (∀ (f : EditFields) (r : DocumentRecord) (v : String), f.status = some v →
      (editFields f r).status = v) := by
  refine ⟨?_, ?_, ?_, ?_⟩
  · intro now sender subject destination date recordId autoDate status c
    rw [show (mkDocumentRecord now sender subject destination date recordId
        autoDate status c).1.status = normalizeStatus status from rfl]
    unfold normalizeStatus
    by_cases h : status = "Done" ∨ status = "Completed"
    · right; simp [h]
    · left; simp [h]
  · intro now sender subject destination date recordId autoDate c
    rfl
  · intro now sender subject destination date recordId autoDate status c h1 h2
    rw [show (mkDocumentRecord now sender subject destination date recordId
        autoDate status c).1.status = normalizeStatus status from rfl]
    unfold normalizeStatus
    rw [if_neg]
    rintro (h | h)
    · exact h1 h
    · exact h2 h
  · intro f r v hv
    simp [editFields, hv]

/-- C2 amended witness: concrete instances of the normalization and of
the verbatim storage through `edit`. -/
theorem c2_status_normalization_witness :
    (mkDocumentRecord "" "A" "B" "C" none none false "Weird" 0).1.status = "Pending" ∧
    (editFields { sender := none, subject := none, destination := none,
                  date := none, status := some "Garbage" } aliceRecord).status = "Garbage" :=
  ⟨c2_status_normalization.2.2.1 "" "A" "B" "C" none none false "Weird" 0
      (by decide) (by decide),
   c2_status_normalization.2.2.2
      { sender := none, subject := none, destination := none, date := none,
        status := some "Garbage" } aliceRecord "Garbage" rfl⟩

/-- C8 counterexample: the normalizer reassigns
`date_str = str(date_str).strip()` and, when nothing parses, returns
*that* — so the whitespace-padded unparseable input `" 13/40/2025 "`
comes back as `"13/40/2025"`, not as the original string unchanged as
the claim requires. -/
theorem c8_counterexample :
    parseAndFormatDate (fun _ => none) " 13/40/2025 " = some "13/40/2025" ∧
    parseAndFormatDate (fun _ => none) " 13/40/2025 " ≠ some " 13/40/2025 " := by
  decide

/-- C8 (amended): the date normalizer maps `"01/07/2025"` and
`"2025-01-07"` to `"2025-01-07"`; blank input and (case-insensitive,
after stripping) `"nan"`/`"nat"`/`"none"` yield the null sentinel; a
non-empty input on which every recognized pattern fails and the
generic fallback cannot parse is returned *stripped* (total function,
never raises) — which is the original string unchanged exactly when
the input carries no leading/trailing whitespace; in particular
`"13/40/2025"` comes back unchanged. -/
theorem c8_date_normalizer :
    (∀ fallback : String → Option String,
      parseAndFormatDate fallback "01/07/2025" = some "2025-01-07" ∧
      parseAndFormatDate fallback "2025-01-07" = some "2025-01-07") ∧
    (∀ (fallback : String → Option String) (s : String),
      pyStrip s = "" ∨ pyLower (pyStrip s) = "nan" ∨ pyLower (pyStrip s) = "nat" ∨
        pyLower (pyStrip s) = "none" →
      parseAndFormatDate fallback s = none) ∧
    (∀ (fallback : String → Option String) (s : String),
      ¬(pyStrip s = "" ∨ pyLower (pyStrip s) = "nan" ∨ pyLower (pyStrip s) = "nat" ∨
        pyLower (pyStrip s) = "none") →
      tryPatterns (pyStrip s).data = none → fallback (pyStrip s) = none →
      parseAndFormatDate fallback s = some (pyStrip s)) ∧
    (∀ (fallback : String → Option String) (s : String),
      ¬(pyStrip s = "" ∨ pyLower (pyStrip s) = "nan" ∨ pyLower (pyStrip s) = "nat" ∨
        pyLower (pyStrip s) = "none") →
      tryPatterns (pyStrip s).data = none → fallback (pyStrip s) = none →
      pyStrip s = s →
      parseAndFormatDate fallback s = some s) ∧
    parseAndFormatDate (fun _ => none) "13/40/2025" = some "13/40/2025" := by
  have hgen : ∀ (fallback : String → Option String) (s : String),
      ¬(pyStrip s = "" ∨ pyLower (pyStrip s) = "nan" ∨ pyLower (pyStrip s) = "nat" ∨
        pyLower (pyStrip s) = "none") →
      tryPatterns (pyStrip s).data = none → fallback (pyStrip s) = none →
      parseAndFormatDate fallback s = some (pyStrip s) := by
    intro fallback s hnot hpat hfb
    push_neg at hnot
    obtain ⟨h1, h2, h3, h4⟩ := hnot
    have hne : s ≠ "" := by
      intro h
      apply h1
      rw [h]
      rfl
    have hlow : pyLower (pyStrip s) ≠ "" := by
      intro hc
      apply h1
      have hmap : (pyStrip s).data.map charToLower = [] := congrArg String.data hc
      have hdat : (pyStrip s).data = [] := by
        cases hd : (pyStrip s).data with
        | nil => rfl
        | cons a t => rw [hd] at hmap; simp at hmap
      cases hq : pyStrip s with
      | mk d =>
        rw [hq] at hdat
        have hd : d = [] := hdat
        subst hd
        rfl
    have hnull : isNullishDate s = false := by
      unfold isNullishDate
      simp only [Bool.or_eq_false_iff, beq_eq_false_iff_ne, ne_eq]
      exact ⟨⟨⟨⟨hne, h2⟩, h3⟩, h4⟩, hlow⟩
    simp only [parseAndFormatDate, hnull, Bool.false_eq_true, if_false]
    rw [hpat, hfb]
  refine ⟨fun fallback => ⟨rfl, rfl⟩, ?_, hgen, ?_, by decide⟩
  · intro fallback s h
    have hnull : isNullishDate s = true := by
      unfold isNullishDate
      rcases h with h | h | h | h
      · have : pyLower (pyStrip s) = "" := by rw [h]; rfl
        simp [this]
      · simp [h]
      · simp [h]
      · simp [h]
    simp [parseAndFormatDate, hnull]
  · intro fallback s hnot hpat hfb hstrip
    rw [hgen fallback s hnot hpat hfb, hstrip]

/-- C8 witness: the null-sentinel clause at `"nan"`, the
stripped-return clause at `" hello "` (padded, no pattern matches, the
fallback cannot parse), and the unchanged-return clause at
`"hello world"` (no surrounding whitespace). -/
theorem c8_date_normalizer_witness :
    parseAndFormatDate (fun _ => none) "nan" = none ∧
    parseAndFormatDate (fun _ => none) " hello " = some "hello" ∧
    parseAndFormatDate (fun _ => none) "hello world" = some "hello world" :=
  ⟨c8_date_normalizer.2.1 (fun _ => none) "nan" (by decide),
   c8_date_normalizer.2.2.1 (fun _ => none) " hello " (by decide) (by decide) rfl,
   c8_date_normalizer.2.2.2.1 (fun _ => none) "hello world" (by decide) (by decide)
     rfl (by decide)⟩

/-- C7 witness: deleting the only record of a one-record store and
adding again yields suffix 001; deleting from a two-record store leaves
the counter untouched. -/
theorem c7_delete_to_empty_resets_witness :
    ((deleteRecord "MAYOR'S OFFICE - 001"
        { records := [aliceRecord], counter := 1,
          recordsFile := [aliceRecord], counterFile := 1 }).1 = true ∧
     (deleteRecord "MAYOR'S OFFICE - 001"
        { records := [aliceRecord], counter := 1,
          recordsFile := [aliceRecord], counterFile := 1 }).2.records = [] ∧
     (deleteRecord "MAYOR'S OFFICE - 001"
        { records := [aliceRecord], counter := 1,
          recordsFile := [aliceRecord], counterFile := 1 }).2.counter = 0 ∧
     (deleteRecord "MAYOR'S OFFICE - 001"
        { records := [aliceRecord], counter := 1,
          recordsFile := [aliceRecord], counterFile := 1 }).2.counterFile = 0 ∧
     (addRecord "2025-01-02 03:04:05" "C" "Memo" "HR" none
        (deleteRecord "MAYOR'S OFFICE - 001"
          { records := [aliceRecord], counter := 1,
            recordsFile := [aliceRecord], counterFile := 1 }).2).1.id
        = "MAYOR'S OFFICE - 001" ∧
     suffixOf (addRecord "2025-01-02 03:04:05" "C" "Memo" "HR" none
        (deleteRecord "MAYOR'S OFFICE - 001"
          { records := [aliceRecord], counter := 1,
            recordsFile := [aliceRecord], counterFile := 1 }).2).1.id = some 1) ∧
    (deleteRecord "MAYOR'S OFFICE - 057"
        { records := [rec057, aliceRecord], counter := 57,
          recordsFile := [rec057, aliceRecord], counterFile := 57 }).2.counter = 57 :=
  ⟨c7_delete_to_empty_resets.1
      { records := [aliceRecord], counter := 1,
        recordsFile := [aliceRecord], counterFile := 1 }
      aliceRecord "2025-01-02 03:04:05" "C" "Memo" "HR" none rfl,
   (c7_delete_to_empty_resets.2 "MAYOR'S OFFICE - 057"
      { records := [rec057, aliceRecord], counter := 57,
        recordsFile := [rec057, aliceRecord], counterFile := 57 } (by decide)).1⟩

/-- C10 witness: a one-record collection with empty destination has
`unique_destinations = 0` and an empty destination list. -/
theorem c10_statistics_nonempty_only_witness :
    (getStatistics [emptyDestRecord]).unique_destinations = 0 ∧
    (getStatistics [emptyDestRecord]).destinations = [] :=
  c10_statistics_nonempty_only.2.2 [emptyDestRecord] (by decide) (by decide)

/-- C5: an additive import in which zero rows end up valid leaves the
whole state (collection and files) exactly as before and reports
failure; an additive import with at least one valid row keeps
every imported record (no rollback) and reports success. -/
theorem c5_import_total_failure_rollback (fallback : String → Option String)
    (rows : List RowInput) (s : KeeperState) :
    (rows.countP rowValid = 0 → importFromExcel fallback false rows s = (false, s)) ∧
    (0 < rows.countP rowValid →
      importFromExcel fallback false rows s =
        (true, { records := s.records ++ (validImports fallback rows s.counter).1,
                 counter := s.counter + rows.countP rowValid,
                 recordsFile := s.records ++ (validImports fallback rows s.counter).1,
                 counterFile := s.counterFile })) := by
  constructor
  · intro h0
    rw [importFromExcel_additive, if_neg (by omega), h0]
    rfl
  · intro hpos
    rw [importFromExcel_additive, if_pos hpos]

/-- C5 witness: on a one-record store, an all-invalid additive bulk
load returns failure with the state unchanged, and a one-valid-row
additive bulk load succeeds keeping the record. -/
theorem c5_import_total_failure_rollback_witness :
    importFromExcel (fun _ => none) false invalidRows
        { records := [aliceRecord], counter := 1,
          recordsFile := [aliceRecord], counterFile := 1 }
      = (false, { records := [aliceRecord], counter := 1,
                  recordsFile := [aliceRecord], counterFile := 1 }) ∧
    importFromExcel (fun _ => none) false oneGoodRow
        { records := [aliceRecord], counter := 1,
          recordsFile := [aliceRecord], counterFile := 1 }
      = (true, { records := [aliceRecord] ++
                   (validImports (fun _ => none) oneGoodRow 1).1,
                 counter := 1 + oneGoodRow.countP rowValid,
                 recordsFile := [aliceRecord] ++
                   (validImports (fun _ => none) oneGoodRow 1).1,
                 counterFile := 1 }) :=
  ⟨(c5_import_total_failure_rollback (fun _ => none) invalidRows
      { records := [aliceRecord], counter := 1,
        recordsFile := [aliceRecord], counterFile := 1 }).1 (by decide),
   (c5_import_total_failure_rollback (fun _ => none) oneGoodRow
      { records := [aliceRecord], counter := 1,
        recordsFile := [aliceRecord], counterFile := 1 }).2 (by decide)⟩

/-- C6: a row whose sender or subject is missing/empty is silently
skipped — it is neither imported nor counted as an error and its record
is not added; `imported_count` equals the number of valid rows and
`error_count` the number of rows whose extraction raised.  Importing 3
rows where row 2 has an empty subject yields `imported_count = 2`,
`error_count = 0` with row 2 absent; a raising row is counted as an
error and does not abort the batch. -/
theorem c6_import_skip_policy :
    (∀ (fallback : String → Option String) (rows : List RowInput)
      (recs : List DocumentRecord) (c : Nat),
      (importLoop fallback rows (recs, c, 0, 0)).2.2.1 = rows.countP rowValid ∧
      (importLoop fallback rows (recs, c, 0, 0)).2.2.2 = rows.countP rowErrored ∧
      (importLoop fallback rows (recs, c, 0, 0)).1
        = recs ++ (validImports fallback rows c).1) ∧
    ((importLoop (fun _ => none) skipRows ([], 0, 0, 0)).2.2.1 = 2 ∧
     (importLoop (fun _ => none) skipRows ([], 0, 0, 0)).2.2.2 = 0 ∧
     (importFromExcel (fun _ => none) false skipRows emptyState).1 = true ∧
     (importFromExcel (fun _ => none) false skipRows emptyState).2.records.map (·.sender)
       = ["A", "C"]) ∧
    ((importLoop (fun _ => none) errorRows ([], 0, 0, 0)).2.2.1 = 2 ∧
     (importLoop (fun _ => none) errorRows ([], 0, 0, 0)).2.2.2 = 1 ∧
     (importFromExcel (fun _ => none) false errorRows emptyState).2.records.map (·.sender)
       = ["D", "E"]) := by
  refine ⟨?_, by decide, by decide⟩
  intro fallback rows recs c
  rw [importLoop_eq fallback rows recs c 0 0]
  exact ⟨by simp, by simp, rfl⟩

/-- C4: loading a record set whose maximum numeric suffix is `maxS`
while the counter file holds `cfile < maxS` reconciles the counter to
`maxS` (in memory and on disk), and the next `add` mints suffix
`maxS + 1`; the reconciliation step never lowers an already-loaded
counter. -/
theorem c4_counter_reconciliation :
    (∀ (storedRecords : List DocumentRecord) (cfile maxS : Nat)
      (now sender subject destination : String) (date : Option String),
      storedRecords ≠ [] → maxSuffix storedRecords = maxS → cfile < maxS →
      (loadProcess storedRecords cfile).counter = maxS ∧
      (loadProcess storedRecords cfile).counterFile = maxS ∧
      (addRecord now sender subject destination date (loadProcess storedRecords cfile)).1.id
        = generateId (maxS + 1) ∧
      suffixOf (addRecord now sender subject destination date
        (loadProcess storedRecords cfile)).1.id = some (maxS + 1)) ∧
    (∀ (c : Nat) (records : List DocumentRecord),
      c ≤ (reconcileCounter (some c) records).getD 0) := by
  constructor
  · intro storedRecords cfile maxS now sender subject destination date hne hmax hlt
    have hempty : storedRecords.isEmpty = false := by
      cases storedRecords with
      | nil => exact absurd rfl hne
      | cons a l => rfl
    have hrec : reconcileCounter none storedRecords = some maxS := by
      unfold reconcileCounter
      rw [hempty]
      simp [hmax]
    have hload : loadProcess storedRecords cfile =
        { records := storedRecords, counter := maxS,
          recordsFile := storedRecords, counterFile := maxS } := by
      unfold loadProcess
      rw [hrec]
    refine ⟨by rw [hload], by rw [hload], ?_, ?_⟩
    · rw [hload]
      rfl
    · rw [hload]
      rw [show (addRecord now sender subject destination date
          { records := storedRecords, counter := maxS,
            recordsFile := storedRecords, counterFile := maxS }).1.id
        = generateId (maxS + 1) from rfl, suffixOf_generateId]
  · intro c records
    unfold reconcileCounter
    by_cases h : records.isEmpty
    · simp [h]
    · have hempty : records.isEmpty = false := by
        revert h; cases records.isEmpty <;> simp
      rw [hempty]
      simp only [Bool.false_eq_true, if_false, Option.getD_some]
      by_cases hgt : maxSuffix records > c
      · rw [if_pos hgt]; omega
      · rw [if_neg hgt]

/-- C4 witness: a stored record with suffix 057 and a counter file
saying 3 reconcile to 57, and the next add produces suffix 058. -/
theorem c4_counter_reconciliation_witness :
    (loadProcess [rec057] 3).counter = 57 ∧
    (loadProcess [rec057] 3).counterFile = 57 ∧
    (addRecord "2025-01-02 03:04:05" "X" "Y" "Z" none (loadProcess [rec057] 3)).1.id
      = generateId 58 ∧
    suffixOf (addRecord "2025-01-02 03:04:05" "X" "Y" "Z" none
      (loadProcess [rec057] 3)).1.id = some 58 :=
  c4_counter_reconciliation.1 [rec057] 3 57 "2025-01-02 03:04:05" "X" "Y" "Z" none
    (by decide) (by decide) (by decide)

/-- C1 counterexample: an additive import of one valid row on an empty
store succeeds and persists a record with numeric suffix 001, yet the
persisted counter file still holds 0 — the persisted counter is *not*
`≥` the highest persisted suffix after this completed public mutation
(`import_from_excel` saves the records but never the counter). -/
theorem c1_counterexample :
    (importFromExcel (fun _ => none) false oneGoodRow emptyState).1 = true ∧
    (importFromExcel (fun _ => none) false oneGoodRow emptyState).2.recordsFile.map (·.id)
      = ["MAYOR'S OFFICE - 001"] ∧
    suffixOf "MAYOR'S OFFICE - 001" = some 1 ∧
    (importFromExcel (fun _ => none) false oneGoodRow emptyState).2.counterFile = 0 ∧
    ¬storeInv (importFromExcel (fun _ => none) false oneGoodRow emptyState).2 := by
  decide

/-- C1 (amended): the in-memory counter dominates every in-memory
suffix after every operation, and add, delete and edit also preserve
the persisted-counter invariant (`storeInv`); but additive import and
restore never write the counter file, so after them only the in-memory
half is guaranteed — the persisted counter is left unchanged and is
re-established only by the next load's reconciliation. -/
theorem c1_persisted_counter :
    (∀ (now sender subject destination : String) (date : Option String) (s : KeeperState),
      storeInv s → storeInv (addRecord now sender subject destination date s).2) ∧
    (∀ (rid : String) (s : KeeperState), storeInv s → storeInv (deleteRecord rid s).2) ∧
    (∀ (rid : String) (f : EditFields) (s : KeeperState),
      storeInv s → storeInv (editRecord rid f s).2) ∧
    (∀ (fallback : String → Option String) (rows : List RowInput) (s : KeeperState),
      (∀ r ∈ s.records, (suffixOf r.id).getD 0 ≤ s.counter) →
      ∀ r ∈ (importFromExcel fallback false rows s).2.records,
        (suffixOf r.id).getD 0 ≤ (importFromExcel fallback false rows s).2.counter) ∧
    (∀ (fallback : String → Option String) (rows : List RowInput) (s : KeeperState),
      (importFromExcel fallback false rows s).2.counterFile = s.counterFile) ∧
    (∀ (entries : List EntryInput) (s : KeeperState),
      (∀ r ∈ s.records, (suffixOf r.id).getD 0 ≤ s.counter) →
      ∀ r ∈ (restoreFromBackup false entries s).2.records,
        (suffixOf r.id).getD 0 ≤ (restoreFromBackup false entries s).2.counter) ∧
    (∀ (entries : List EntryInput) (s : KeeperState),
      (restoreFromBackup false entries s).2.counterFile = s.counterFile) := by
  refine ⟨?_, ?_, ?_, ?_, ?_, ?_, ?_⟩
  · -- add preserves the invariant
    rintro now sender subject destination date s ⟨h1, _h2, h3⟩
    have hid : (addRecord now sender subject destination date s).1.id
        = generateId (s.counter + 1) := rfl
    refine ⟨?_, ?_, le_refl _⟩
    · intro r' hr'
      rcases List.mem_append.mp hr' with hold | hnew
      · exact le_trans (h1 r' hold) (Nat.le_succ _)
      · rw [List.mem_singleton] at hnew
        subst hnew
        dsimp only
        rw [suffixOf_generateId]
        exact Nat.le_refl _
    · intro r' hr'
      rcases List.mem_append.mp hr' with hold | hnew
      · exact le_trans (h1 r' hold) (Nat.le_succ _)
      · rw [List.mem_singleton] at hnew
        subst hnew
        dsimp only
        rw [suffixOf_generateId]
        exact Nat.le_refl _
  · -- delete preserves the invariant
    rintro rid s ⟨h1, _h2, h3⟩
    unfold deleteRecord
    match hd : deleteList rid s.records with
    | none => exact ⟨h1, _h2, h3⟩
    | some recs =>
      by_cases he : recs.isEmpty
      · simp only [he, if_pos]
        have hrecs : recs = [] := List.isEmpty_iff.mp he
        subst hrecs
        exact ⟨by intro r hr; simp at hr, by intro r hr; simp at hr, le_refl _⟩
      · have he' : recs.isEmpty = false := by
          revert he; cases recs.isEmpty <;> simp
        simp only [he', Bool.false_eq_true, if_false]
        refine ⟨?_, ?_, h3⟩
        · intro r hr
          exact h1 r (deleteList_subset rid s.records recs hd r hr)
        · intro r hr
          exact le_trans (h1 r (deleteList_subset rid s.records recs hd r hr)) h3
  · -- edit preserves the invariant
    rintro rid f s ⟨h1, _h2, h3⟩
    unfold editRecord
    match hd : editList rid f s.records with
    | none => exact ⟨h1, _h2, h3⟩
    | some recs =>
      have hbound : ∀ r ∈ recs, (suffixOf r.id).getD 0 ≤ s.counter := by
        intro r hr
        have hidmem : r.id ∈ recs.map (·.id) := List.mem_map_of_mem _ hr
        rw [editList_ids rid f s.records recs hd] at hidmem
        obtain ⟨y, hy, hyid⟩ := List.mem_map.mp hidmem
        rw [← hyid]
        exact h1 y hy
      exact ⟨hbound, fun r hr => le_trans (hbound r hr) h3, h3⟩
  · -- additive import: the in-memory half
    intro fallback rows s h1
    rw [importFromExcel_additive]
    by_cases hpos : 0 < rows.countP rowValid
    · rw [if_pos hpos]
      intro r hr
      rcases List.mem_append.mp hr with hold | hnew
      · exact le_trans (h1 r hold) (Nat.le_add_right _ _)
      · have := validImports_suffix_bound fallback rows s.counter r hnew
        rwa [validImports_counter] at this
    · rw [if_neg hpos]
      intro r hr
      exact le_trans (h1 r hr) (Nat.le_add_right _ _)
  · -- additive import never writes the counter file
    intro fallback rows s
    rw [importFromExcel_additive]
    by_cases hpos : 0 < rows.countP rowValid
    · rw [if_pos hpos]
    · rw [if_neg hpos]
  · -- additive restore: the in-memory half
    intro entries s h1
    rw [restoreFromBackup_additive]
    by_cases hpos : 0 < entries.countP entryValid
    · rw [if_pos hpos]
      intro r hr
      rcases List.mem_append.mp hr with hold | hnew
      · exact le_trans (h1 r hold) (Nat.le_add_right _ _)
      · have := validRestores_suffix_bound entries s.counter r hnew
        rwa [validRestores_counter] at this
    · rw [if_neg hpos]
      intro r hr
      exact le_trans (h1 r hr) (Nat.le_add_right _ _)
  · -- additive restore never writes the counter file
    intro entries s
    rw [restoreFromBackup_additive]
    by_cases hpos : 0 < entries.countP entryValid
    · rw [if_pos hpos]
    · rw [if_neg hpos]

/-- C1 amended witness: the add-preservation clause applied to the
empty store, and the import clause applied to a concrete batch. -/
theorem c1_persisted_counter_witness :
    storeInv (addRecord "2025-01-02 03:04:05" "A" "B" "C" none emptyState).2 ∧
    (importFromExcel (fun _ => none) false oneGoodRow emptyState).2.counterFile
      = emptyState.counterFile :=
  ⟨c1_persisted_counter.1 "2025-01-02 03:04:05" "A" "B" "C" none emptyState (by decide),
   c1_persisted_counter.2.2.2.2.1 (fun _ => none) oneGoodRow emptyState⟩

end RecordKeeper
